import Mathlib

/-!
Verification of the traph nested state-container library.

The repository keeps two revisions of the library. The current revision
(src/unnamed/part_001) exports mergeGraphData, resolveSubgraphs,
resolveSubGraphsData, getSubgraphs and the node constructor; an earlier
revision (the second file inside src/unnamed/part_002) has the same
functions with two behavioural differences that matter below: its
mergeGraphData returns early out of the array loop, and its
resolveSubgraphs maps a bare graph node to null instead of returning it.

JavaScript values that the library manipulates are embedded as the
inductive type GVal: null, undefined, strings, numbers, booleans, plain
objects (association lists, in insertion order), arrays, and graph-node
references. A graph node, as built by traph(), is represented by its two
data components (the unique id and the initialGraph shape); its Provider,
useGraph and Context members are functions and are modelled separately
where a claim needs them. Object key access graph[key] yields undefined
for a missing key (objGet); array access graph[i] yields undefined past
the end (List.getD with default vundef).
-/

namespace Traph

/-- JavaScript values as the library sees them. -/
inductive GVal : Type where
  | vnull : GVal
  | vundef : GVal
  | vstr (s : String) : GVal
  | vnum (n : Int) : GVal
  | vbool (b : Bool) : GVal
  | vobj (fields : List (String × GVal)) : GVal
  | varr (elems : List GVal) : GVal
  | vgraph (gid : Nat) (initialGraph : GVal) : GVal

/-- isGraph (part_001 lines 22-24): graph && graph.__isGraph. Only the
vgraph constructor carries the __isGraph marker. -/
def isGraphB : GVal → Bool
  | .vgraph _ _ => true
  | _ => false

/-- The test v === undefined used on object and array accesses. -/
def isUndefB : GVal → Bool
  | .vundef => true
  | _ => false

/-- The first guard of mergeGraphData (part_001 line 165): graphData ===
null || graphData === undefined || isString(graphData) ||
isNumber(graphData). Booleans are deliberately not included there. -/
def isScalarLike : GVal → Bool
  | .vnull => true
  | .vundef => true
  | .vstr _ => true
  | .vnum _ => true
  | _ => false

/-- JavaScript object member access graph[key]: the value at the first
matching key, undefined when the key is absent. -/
def objGet : List (String × GVal) → String → GVal
  | [], _ => .vundef
  | (k', v) :: rest, k => if k' = k then v else objGet rest k

/-- One step of lodash union: append the key unless it is already present. -/
def insertUniq (acc : List String) (k : String) : List String :=
  if k ∈ acc then acc else acc ++ [k]

/-- lodash union(graphKeys, graphDataKeys) (part_001 line 200): all keys of
both sides, first occurrence first, duplicates dropped. -/
def unionKeys (xs ys : List String) : List String :=
  (xs ++ ys).foldl insertUniq []

/-- mergeGraphData of the current revision, src/unnamed/part_001 lines
152-219. Branch order as in the source: scalar-or-nullish new data wins;
an old graph node wins; arrays merge per index over
Math.max(graphData.length, graph.length) entries, an undefined side
passing the other side through; plain objects merge over the union of
keys the same way; every other new value (booleans in particular) is
accepted as is. A type mismatch (array or object new data against a
different old shape) returns the new data outright. -/
def mergeGraphData (graph : GVal) (graphData : GVal) : GVal :=
  if isScalarLike graphData then graphData
  else if isGraphB graph then graph
  else
    match graph, graphData with
    | .varr old, .varr new =>
      .varr ((List.range (max new.length old.length)).map fun i =>
        let gv := old.getD i .vundef
        let gdv := new.getD i .vundef
        if h1 : isUndefB gv then gdv
        else if h2 : isUndefB gdv then gv
        else mergeGraphData gv gdv)
    | _, .varr _ => graphData
    | .vobj old, .vobj new =>
      .vobj ((unionKeys (old.map Prod.fst) (new.map Prod.fst)).map fun k =>
        let gv := objGet old k
        let gdv := objGet new k
        (k, if h1 : isUndefB gv then gdv
            else if h2 : isUndefB gdv then gv
            else mergeGraphData gv gdv))
    | _, .vobj _ => graphData
    | _, _ => graphData
termination_by sizeOf graph + sizeOf graphData
decreasing_by
  · have H : ∀ (l : List GVal) (j : Nat),
        l.getD j GVal.vundef = GVal.vundef ∨ sizeOf (l.getD j GVal.vundef) < sizeOf l := by
      intro l
      induction l with
      | nil => intro j; left; simp [List.getD]
      | cons x rest ih =>
        intro j
        cases j with
        | zero => right; simp [List.getD]; omega
        | succ j' =>
          rcases ih j' with h | h
          · left; simpa [List.getD] using h
          · right
            have hx : (x :: rest).getD (j' + 1) GVal.vundef = rest.getD j' GVal.vundef := by
              simp [List.getD]
            rw [hx]
            have : sizeOf rest < sizeOf (x :: rest) := by simp
            omega
    have NE : ∀ {v : GVal}, ¬ isUndefB v = true → ¬ v = GVal.vundef :=
      fun hnv hv => hnv (by rw [hv]; rfl)
    rcases H old i with h | h
    · exact absurd h (NE h1)
    · rcases H new i with h' | h'
      · exact absurd h' (NE h2)
      · simp only [GVal.varr.sizeOf_spec]
        omega
  · have H : ∀ (fs : List (String × GVal)) (k' : String),
        objGet fs k' = GVal.vundef ∨ sizeOf (objGet fs k') < sizeOf fs := by
      intro fs
      induction fs with
      | nil => intro k'; left; rfl
      | cons p rest ih =>
        intro k'
        obtain ⟨ka, va⟩ := p
        simp only [objGet]
        by_cases h : ka = k'
        · right
          simp only [if_pos h]
          simp
          omega
        · simp only [if_neg h]
          rcases ih k' with h' | h'
          · left; exact h'
          · right
            have : sizeOf rest < sizeOf ((ka, va) :: rest) := by simp
            omega
    have NE : ∀ {v : GVal}, ¬ isUndefB v = true → ¬ v = GVal.vundef :=
      fun hnv hv => hnv (by rw [hv]; rfl)
    rcases H old k with h | h
    · exact absurd h (NE h1)
    · rcases H new k with h' | h'
      · exact absurd h' (NE h2)
      · simp only [GVal.vobj.sizeOf_spec]
        omega

mutual

/-- mergeGraphData of the earlier revision, src/unnamed/part_002 lines
374-442. Identical to the current revision except inside the array
branch, where the two undefined checks are written return graphDataVal
and return graphVal: they leave the whole function with that single
element, discarding the accumulated array (mergeArrV2 models the loop). -/
def mergeGraphDataV2 (graph : GVal) (graphData : GVal) : GVal :=
  if isScalarLike graphData then graphData
  else if isGraphB graph then graph
  else
    match graph, graphData with
    | .varr old, .varr new => mergeArrV2 old new []
    | _, .varr _ => graphData
    | .vobj old, .vobj new =>
      .vobj ((unionKeys (old.map Prod.fst) (new.map Prod.fst)).map fun k =>
        let gv := objGet old k
        let gdv := objGet new k
        (k, if h1 : isUndefB gv then gdv
            else if h2 : isUndefB gdv then gv
            else mergeGraphDataV2 gv gdv))
    | _, .vobj _ => graphData
    | _, _ => graphData
termination_by sizeOf graph + sizeOf graphData
decreasing_by
  · simp only [GVal.varr.sizeOf_spec]
    omega
  · have H : ∀ (fs : List (String × GVal)) (k' : String),
        objGet fs k' = GVal.vundef ∨ sizeOf (objGet fs k') < sizeOf fs := by
      intro fs
      induction fs with
      | nil => intro k'; left; rfl
      | cons p rest ih =>
        intro k'
        obtain ⟨ka, va⟩ := p
        simp only [objGet]
        by_cases h : ka = k'
        · right
          simp only [if_pos h]
          simp
          omega
        · simp only [if_neg h]
          rcases ih k' with h' | h'
          · left; exact h'
          · right
            have : sizeOf rest < sizeOf ((ka, va) :: rest) := by simp
            omega
    have NE : ∀ {v : GVal}, ¬ isUndefB v = true → ¬ v = GVal.vundef :=
      fun hnv hv => hnv (by rw [hv]; rfl)
    rcases H old k with h | h
    · exact absurd h (NE h1)
    · rcases H new k with h' | h'
      · exact absurd h' (NE h2)
      · simp only [GVal.vobj.sizeOf_spec]
        omega

/-- The for loop of the earlier revision (part_002 lines 401-414), written
over the two suffixes still to be visited: old[i], new[i] for i up to
Math.max of the lengths are exactly the heads of the suffix pair, with
undefined once a suffix is exhausted. An undefined graph value returns
graphDataVal from the whole merge (second arm, and first branch of the
third arm); an undefined graphData value returns graphVal; otherwise the
element merge is pushed and the loop continues. -/
def mergeArrV2 (old new acc : List GVal) : GVal :=
  match old, new with
  | [], [] => .varr acc
  | [], d :: _ => d
  | g :: _, [] => if isUndefB g then .vundef else g
  | g :: gs, d :: ds =>
      if isUndefB g then d
      else if isUndefB d then g
      else mergeArrV2 gs ds (acc ++ [mergeGraphDataV2 g d])
termination_by sizeOf old + sizeOf new
decreasing_by
  · simp
    omega
  · simp
    omega

end

mutual

/-- resolveSubgraphs of the current revision, src/unnamed/part_001 lines
85-114. A bare graph node is returned unchanged (line 87). Inside a plain
object or array, a graph-node entry is replaced by value.useGraph()[0];
the environment env stands for that call, mapping a node id to the value
component the node accessor currently returns; any other object or array
entry is recursed into; scalars pass through. This total-environment
version assumes every nested accessor call succeeds; resolveSubgraphsE
below keeps the error path of those calls (value.useGraph() throws when
no provider for that node encloses the caller), which matters to the
scope-error claim but not to the bare-node branch, where no accessor
call is made. -/
def resolveSubgraphs (env : Nat → GVal) : GVal → GVal
  | .vgraph gid init => .vgraph gid init
  | .vobj fs => .vobj (resolveSubgraphsFields env fs)
  | .varr es => .varr (resolveSubgraphsElems env es)
  | v => v

def resolveSubgraphsFields (env : Nat → GVal) : List (String × GVal) → List (String × GVal)
  | [] => []
  | (k, v) :: rest =>
    (k, match v with
        | .vgraph gid _ => env gid
        | .vobj fs => resolveSubgraphs env (.vobj fs)
        | .varr es => resolveSubgraphs env (.varr es)
        | w => w) :: resolveSubgraphsFields env rest

def resolveSubgraphsElems (env : Nat → GVal) : List GVal → List GVal
  | [] => []
  | v :: rest =>
    (match v with
     | .vgraph gid _ => env gid
     | .vobj fs => resolveSubgraphs env (.vobj fs)
     | .varr es => resolveSubgraphs env (.varr es)
     | w => w) :: resolveSubgraphsElems env rest

end

mutual

/-- resolveSubgraphs of the earlier revision, src/unnamed/part_002 lines
305-337: identical to the current revision except that a bare graph node
resolves to null (line 309). -/
def resolveSubgraphsV2 (env : Nat → GVal) : GVal → GVal
  | .vgraph _ _ => .vnull
  | .vobj fs => .vobj (resolveSubgraphsV2Fields env fs)
  | .varr es => .varr (resolveSubgraphsV2Elems env es)
  | v => v

def resolveSubgraphsV2Fields (env : Nat → GVal) : List (String × GVal) → List (String × GVal)
  | [] => []
  | (k, v) :: rest =>
    (k, match v with
        | .vgraph gid _ => env gid
        | .vobj fs => resolveSubgraphsV2 env (.vobj fs)
        | .varr es => resolveSubgraphsV2 env (.varr es)
        | w => w) :: resolveSubgraphsV2Fields env rest

def resolveSubgraphsV2Elems (env : Nat → GVal) : List GVal → List GVal
  | [] => []
  | v :: rest =>
    (match v with
     | .vgraph gid _ => env gid
     | .vobj fs => resolveSubgraphsV2 env (.vobj fs)
     | .varr es => resolveSubgraphsV2 env (.varr es)
     | w => w) :: resolveSubgraphsV2Elems env rest

end

mutual

/-- resolveSubGraphsData, src/unnamed/part_001 lines 122-150 (the earlier
revision, part_002 lines 345-372, is the same function). A bare graph
node extracts its initialGraph recursively; inside a plain object a
graph-node entry extracts its initialGraph and any other object or array
entry is recursed into; inside an array only a graph-node element is
extracted — a non-graph element, objects and arrays included, is kept
unchanged (lines 141-146). -/
def resolveSubGraphsData : GVal → GVal
  | .vgraph _ init => resolveSubGraphsData init
  | .vobj fs => .vobj (resolveSubGraphsDataFields fs)
  | .varr es => .varr (resolveSubGraphsDataElems es)
  | v => v

def resolveSubGraphsDataFields : List (String × GVal) → List (String × GVal)
  | [] => []
  | (k, v) :: rest =>
    (k, match v with
        | .vgraph _ init => resolveSubGraphsData init
        | .vobj fs => resolveSubGraphsData (.vobj fs)
        | .varr es => resolveSubGraphsData (.varr es)
        | w => w) :: resolveSubGraphsDataFields rest

def resolveSubGraphsDataElems : List GVal → List GVal
  | [] => []
  | v :: rest =>
    (match v with
     | .vgraph gid init => resolveSubGraphsData (.vgraph gid init)
     | w => w) :: resolveSubGraphsDataElems rest

end

mutual

/-- Whether a value embeds a graph-node reference anywhere (the notion the
stored-data invariant of the specification quantifies over). -/
def containsGraph : GVal → Bool
  | .vgraph _ _ => true
  | .vobj fs => containsGraphFields fs
  | .varr es => containsGraphElems es
  | _ => false

def containsGraphFields : List (String × GVal) → Bool
  | [] => false
  | (_, v) :: rest => containsGraph v || containsGraphFields rest

def containsGraphElems : List GVal → Bool
  | [] => false
  | v :: rest => containsGraph v || containsGraphElems rest

end

mutual

/-- resolveSubgraphs of the current revision with the accessor error path
kept: value.useGraph()[0] on a nested node (part_001 lines 91 and 103)
throws the scope error of part_001 line 316 when no provider for that
node encloses the caller — the Provider auto-mounts providers only for
the direct subgraph entries found by getSubgraphs(initialGraph) (line
277), so a node nested at depth two or more gets none — and in
JavaScript that exception aborts the whole reduce. The environment gives,
per node id, what the nested accessor call yields: a value, or the
thrown message. A bare graph node is still returned unchanged with no
accessor call (line 87), so that branch never throws. -/
def resolveSubgraphsE (env : Nat → Except String GVal) : GVal → Except String GVal
  | .vgraph gid init => .ok (.vgraph gid init)
  | .vobj fs => (resolveSubgraphsEFields env fs).map GVal.vobj
  | .varr es => (resolveSubgraphsEElems env es).map GVal.varr
  | v => .ok v

def resolveSubgraphsEFields (env : Nat → Except String GVal) :
    List (String × GVal) → Except String (List (String × GVal))
  | [] => .ok []
  | (k, v) :: rest =>
    match (match v with
           | .vgraph gid _ => env gid
           | .vobj fs => resolveSubgraphsE env (.vobj fs)
           | .varr es => resolveSubgraphsE env (.varr es)
           | w => .ok w) with
    | .error e => .error e
    | .ok rv =>
      match resolveSubgraphsEFields env rest with
      | .error e => .error e
      | .ok rs => .ok ((k, rv) :: rs)

def resolveSubgraphsEElems (env : Nat → Except String GVal) :
    List GVal → Except String (List GVal)
  | [] => .ok []
  | v :: rest =>
    match (match v with
           | .vgraph gid _ => env gid
           | .vobj fs => resolveSubgraphsE env (.vobj fs)
           | .varr es => resolveSubgraphsE env (.varr es)
           | w => .ok w) with
    | .error e => .error e
    | .ok rv =>
      match resolveSubgraphsEElems env rest with
      | .error e => .error e
      | .ok rs => .ok (rv :: rs)

end

/-- The context value a mounted Provider supplies (part_001 line 284):
the initial shape and the current store value. The setter is modelled by
setGraphApply below. -/
structure GraphCtx where
  graph : GVal
  graphData : GVal

/-- The message of the error thrown by useGraph outside a provider
(part_001 line 316, identical at part_002 line 534). -/
def useGraphErrMsg : String := "useGraph must be inside a provider of the store being called."

/-- useGraph, src/unnamed/part_001 lines 312-338 (part_002 lines 530-538
has the identical guard): useContext yields null when no provider for
this node encloses the caller, and useGraph throws; otherwise the hook
computes resolveSubgraphs of mergeGraphData(graph, graphData), which can
itself throw the same scope error out of a nested value.useGraph()[0]
call when an embedded node lacks an enclosing provider — env gives each
nested accessor outcome. rebindGraphFunctions is the identity on the
function-free values GVal models. -/
def useGraphValue (env : Nat → Except String GVal) : Option GraphCtx → Except String GVal
  | none => .error useGraphErrMsg
  | some c => resolveSubgraphsE env (mergeGraphData c.graph c.graphData)

/-- An argument passed to the update or set function: a plain value or a
functional updater. -/
inductive UpdatePayload : Type where
  | plain (v : GVal) : UpdatePayload
  | fn (f : GVal → GVal) : UpdatePayload

/-- The store setter returned by useState: called with a plain value, the
store becomes that value; called with a function, the host applies it to
the freshest store value at execution time and stores the result. -/
def setGraphApply : UpdatePayload → GVal → GVal
  | .plain v, _ => v
  | .fn f, storeNow => f storeNow

/-- updateGraph, src/unnamed/part_001 lines 323-329: a function payload is
forwarded to setGraph unchanged; any other payload is merged into
graphData — the context value captured when useGraph ran — and the result
is passed to setGraph as a plain value. -/
def updateGraphArg (graphData : GVal) : UpdatePayload → UpdatePayload
  | .fn f => .fn f
  | .plain p => .plain (mergeGraphData graphData p)

/-- The store value after an updateGraph call executes: graphData is the
context snapshot captured when the accessor ran, storeNow the store value
at the moment the setter executes. -/
def updateGraphRun (graphData : GVal) (payload : UpdatePayload) (storeNow : GVal) : GVal :=
  setGraphApply (updateGraphArg graphData payload) storeNow


/-! Small evaluation and unfolding lemmas about the embedded definitions. -/

@[simp] theorem isUndefB_vnull : isUndefB .vnull = false := rfl

@[simp] theorem isUndefB_vundef : isUndefB .vundef = true := rfl

@[simp] theorem isUndefB_vstr (s : String) : isUndefB (.vstr s) = false := rfl

@[simp] theorem isUndefB_vnum (n : Int) : isUndefB (.vnum n) = false := rfl

@[simp] theorem isUndefB_vbool (b : Bool) : isUndefB (.vbool b) = false := rfl

@[simp] theorem isUndefB_vobj (fs : List (String × GVal)) : isUndefB (.vobj fs) = false := rfl

@[simp] theorem isUndefB_varr (es : List GVal) : isUndefB (.varr es) = false := rfl

@[simp] theorem isUndefB_vgraph (gid : Nat) (g : GVal) : isUndefB (.vgraph gid g) = false := rfl

@[simp] theorem isGraphB_vnull : isGraphB .vnull = false := rfl

@[simp] theorem isGraphB_vundef : isGraphB .vundef = false := rfl

@[simp] theorem isGraphB_vstr (s : String) : isGraphB (.vstr s) = false := rfl

@[simp] theorem isGraphB_vnum (n : Int) : isGraphB (.vnum n) = false := rfl

@[simp] theorem isGraphB_vbool (b : Bool) : isGraphB (.vbool b) = false := rfl

@[simp] theorem isGraphB_vobj (fs : List (String × GVal)) : isGraphB (.vobj fs) = false := rfl

@[simp] theorem isGraphB_varr (es : List GVal) : isGraphB (.varr es) = false := rfl

@[simp] theorem isGraphB_vgraph (gid : Nat) (g : GVal) : isGraphB (.vgraph gid g) = true := rfl

@[simp] theorem isScalarLike_vnull : isScalarLike .vnull = true := rfl

@[simp] theorem isScalarLike_vundef : isScalarLike .vundef = true := rfl

@[simp] theorem isScalarLike_vstr (s : String) : isScalarLike (.vstr s) = true := rfl

@[simp] theorem isScalarLike_vnum (n : Int) : isScalarLike (.vnum n) = true := rfl

@[simp] theorem isScalarLike_vbool (b : Bool) : isScalarLike (.vbool b) = false := rfl

@[simp] theorem isScalarLike_vobj (fs : List (String × GVal)) : isScalarLike (.vobj fs) = false := rfl

@[simp] theorem isScalarLike_varr (es : List GVal) : isScalarLike (.varr es) = false := rfl

@[simp] theorem isScalarLike_vgraph (gid : Nat) (g : GVal) : isScalarLike (.vgraph gid g) = false := rfl

theorem isUndefB_eq_true (v : GVal) : isUndefB v = true ↔ v = GVal.vundef := by
  cases v <;> simp

theorem range_two : List.range 2 = [0, 1] := by decide

theorem range_three : List.range 3 = [0, 1, 2] := by decide

/-- The array branch of mergeGraphData, unfolded: per-index merge over
Math.max of the two lengths. -/
theorem merge_varr_varr (old new : List GVal) :
    mergeGraphData (.varr old) (.varr new) =
    .varr ((List.range (max new.length old.length)).map fun i =>
      if isUndefB (old.getD i .vundef) then new.getD i .vundef
      else if isUndefB (new.getD i .vundef) then old.getD i .vundef
      else mergeGraphData (old.getD i .vundef) (new.getD i .vundef)) := by
  rw [mergeGraphData]
  simp only [isScalarLike_varr, isGraphB_varr, Bool.false_eq_true, if_false, dite_eq_ite]

/-- The plain-object branch of mergeGraphData, unfolded: per-key merge over
the union of the two key lists. -/
theorem merge_vobj_vobj (old new : List (String × GVal)) :
    mergeGraphData (.vobj old) (.vobj new) =
    .vobj ((unionKeys (old.map Prod.fst) (new.map Prod.fst)).map fun k =>
      (k, if isUndefB (objGet old k) then objGet new k
          else if isUndefB (objGet new k) then objGet old k
          else mergeGraphData (objGet old k) (objGet new k))) := by
  rw [mergeGraphData]
  simp only [isScalarLike_vobj, isGraphB_vobj, Bool.false_eq_true, if_false, dite_eq_ite]

theorem mem_insertUniq (acc : List String) (k x : String) :
    x ∈ insertUniq acc k ↔ x ∈ acc ∨ x = k := by
  unfold insertUniq
  by_cases h : k ∈ acc
  · rw [if_pos h]
    constructor
    · exact Or.inl
    · rintro (hx | rfl)
      · exact hx
      · exact h
  · rw [if_neg h]
    simp [List.mem_append]

theorem mem_foldl_insertUniq (l : List String) (acc : List String) (x : String) :
    x ∈ l.foldl insertUniq acc ↔ x ∈ acc ∨ x ∈ l := by
  induction l generalizing acc with
  | nil => simp
  | cons a rest ih =>
    simp only [List.foldl_cons, ih, mem_insertUniq, List.mem_cons]
    tauto

theorem mem_unionKeys (xs ys : List String) (x : String) :
    x ∈ unionKeys xs ys ↔ x ∈ xs ∨ x ∈ ys := by
  unfold unionKeys
  simp [mem_foldl_insertUniq]

theorem objGet_map_keys (ks : List String) (f : String → GVal) (k : String) :
    objGet (ks.map fun k2 => (k2, f k2)) k = if k ∈ ks then f k else .vundef := by
  induction ks with
  | nil => simp [objGet]
  | cons a rest ih =>
    simp only [List.map_cons, objGet]
    by_cases h : a = k
    · subst h
      simp
    · rw [if_neg h, ih]
      by_cases hk : k ∈ rest
      · rw [if_pos hk, if_pos (List.mem_cons.mpr (Or.inr hk))]
      · rw [if_neg hk,
          if_neg (fun hmem => (List.mem_cons.mp hmem).elim (fun he => h he.symm) hk)]

theorem objGet_not_mem (fs : List (String × GVal)) (k : String)
    (h : k ∉ fs.map Prod.fst) : objGet fs k = .vundef := by
  induction fs with
  | nil => rfl
  | cons p rest ih =>
    obtain ⟨ka, va⟩ := p
    simp only [List.map_cons, List.mem_cons] at h
    push_neg at h
    simp only [objGet]
    rw [if_neg (fun he => h.1 he.symm)]
    exact ih h.2

/-- When every nested node accessor in the environment succeeds, the
fallible resolver succeeds on every value: no error can arise from the
structural walk itself. Proved by strong induction on the size of the
value, covering the three mutually recursive walkers at once. -/
theorem resolveSubgraphsE_ok (env : Nat → Except String GVal)
    (henv : ∀ gid, ∃ v, env gid = Except.ok v) :
    ∀ g : GVal, ∃ v, resolveSubgraphsE env g = Except.ok v := by
  suffices H : ∀ n : Nat,
      (∀ g : GVal, sizeOf g ≤ n → ∃ v, resolveSubgraphsE env g = Except.ok v) ∧
      (∀ fs : List (String × GVal), sizeOf fs ≤ n →
        ∃ l, resolveSubgraphsEFields env fs = Except.ok l) ∧
      (∀ es : List GVal, sizeOf es ≤ n →
        ∃ l, resolveSubgraphsEElems env es = Except.ok l) by
    intro g
    exact (H (sizeOf g)).1 g le_rfl
  intro n
  induction n using Nat.strong_induction_on with
  | _ n ih =>
    refine ⟨?_, ?_, ?_⟩
    · intro g hg
      cases g with
      | vnull => exact ⟨_, rfl⟩
      | vundef => exact ⟨_, rfl⟩
      | vstr s => exact ⟨_, rfl⟩
      | vnum m => exact ⟨_, rfl⟩
      | vbool b => exact ⟨_, rfl⟩
      | vgraph gid init => exact ⟨_, rfl⟩
      | vobj fs =>
        have hlt : sizeOf fs < n := by
          have h1 : sizeOf fs < sizeOf (GVal.vobj fs) := by
            simp only [GVal.vobj.sizeOf_spec]
            omega
          omega
        obtain ⟨l, hl⟩ := (ih (sizeOf fs) hlt).2.1 fs le_rfl
        exact ⟨GVal.vobj l, by simp [resolveSubgraphsE, hl, Except.map]⟩
      | varr es =>
        have hlt : sizeOf es < n := by
          have h1 : sizeOf es < sizeOf (GVal.varr es) := by
            simp only [GVal.varr.sizeOf_spec]
            omega
          omega
        obtain ⟨l, hl⟩ := (ih (sizeOf es) hlt).2.2 es le_rfl
        exact ⟨GVal.varr l, by simp [resolveSubgraphsE, hl, Except.map]⟩
    · intro fs hfs
      cases fs with
      | nil => exact ⟨_, rfl⟩
      | cons p rest =>
        obtain ⟨k, v⟩ := p
        have hrest : sizeOf rest < n := by
          have h1 : sizeOf rest < sizeOf ((k, v) :: rest) := by
            simp only [List.cons.sizeOf_spec]
            omega
          omega
        obtain ⟨rs, hrs⟩ := (ih (sizeOf rest) hrest).2.1 rest le_rfl
        have hvn : sizeOf v < n := by
          have h1 : sizeOf v < sizeOf ((k, v) :: rest) := by
            simp only [List.cons.sizeOf_spec, Prod.mk.sizeOf_spec]
            omega
          omega
        cases v with
        | vgraph gid init =>
          obtain ⟨w, hw⟩ := henv gid
          exact ⟨(k, w) :: rs, by simp [resolveSubgraphsEFields, hw, hrs]⟩
        | vobj fs2 =>
          obtain ⟨rv, hrv⟩ := (ih (sizeOf (GVal.vobj fs2)) hvn).1 (GVal.vobj fs2) le_rfl
          exact ⟨(k, rv) :: rs, by simp [resolveSubgraphsEFields, hrv, hrs]⟩
        | varr es2 =>
          obtain ⟨rv, hrv⟩ := (ih (sizeOf (GVal.varr es2)) hvn).1 (GVal.varr es2) le_rfl
          exact ⟨(k, rv) :: rs, by simp [resolveSubgraphsEFields, hrv, hrs]⟩
        | vnull => exact ⟨(k, .vnull) :: rs, by simp [resolveSubgraphsEFields, hrs]⟩
        | vundef => exact ⟨(k, .vundef) :: rs, by simp [resolveSubgraphsEFields, hrs]⟩
        | vstr s => exact ⟨(k, .vstr s) :: rs, by simp [resolveSubgraphsEFields, hrs]⟩
        | vnum m => exact ⟨(k, .vnum m) :: rs, by simp [resolveSubgraphsEFields, hrs]⟩
        | vbool b => exact ⟨(k, .vbool b) :: rs, by simp [resolveSubgraphsEFields, hrs]⟩
    · intro es hes
      cases es with
      | nil => exact ⟨_, rfl⟩
      | cons v rest =>
        have hrest : sizeOf rest < n := by
          have h1 : sizeOf rest < sizeOf (v :: rest) := by
            simp only [List.cons.sizeOf_spec]
            omega
          omega
        obtain ⟨rs, hrs⟩ := (ih (sizeOf rest) hrest).2.2 rest le_rfl
        have hvn : sizeOf v < n := by
          have h1 : sizeOf v < sizeOf (v :: rest) := by
            simp only [List.cons.sizeOf_spec]
            omega
          omega
        cases v with
        | vgraph gid init =>
          obtain ⟨w, hw⟩ := henv gid
          exact ⟨w :: rs, by simp [resolveSubgraphsEElems, hw, hrs]⟩
        | vobj fs2 =>
          obtain ⟨rv, hrv⟩ := (ih (sizeOf (GVal.vobj fs2)) hvn).1 (GVal.vobj fs2) le_rfl
          exact ⟨rv :: rs, by simp [resolveSubgraphsEElems, hrv, hrs]⟩
        | varr es2 =>
          obtain ⟨rv, hrv⟩ := (ih (sizeOf (GVal.varr es2)) hvn).1 (GVal.varr es2) le_rfl
          exact ⟨rv :: rs, by simp [resolveSubgraphsEElems, hrv, hrs]⟩
        | vnull => exact ⟨.vnull :: rs, by simp [resolveSubgraphsEElems, hrs]⟩
        | vundef => exact ⟨.vundef :: rs, by simp [resolveSubgraphsEElems, hrs]⟩
        | vstr s => exact ⟨.vstr s :: rs, by simp [resolveSubgraphsEElems, hrs]⟩
        | vnum m => exact ⟨.vnum m :: rs, by simp [resolveSubgraphsEElems, hrs]⟩
        | vbool b => exact ⟨.vbool b :: rs, by simp [resolveSubgraphsEElems, hrs]⟩


/-! The claims. -/

/-- Claim C1, confirmed: for every graph node sub and the old value
{a:2, b:{f:sub}, c:{d:5,e:6}}, merging {a:9, b:{f:{g:"x"}}, c:{d:10}}
yields {a:9, b:{f:sub}, c:{d:10,e:6}} — the node reference at depth 2
survives even though the new data puts a plain object in its place, and
plain sibling fields merge by key union with new-side precedence. -/
theorem c1_deep_node_preservation (gid : Nat) (init : GVal) :
    mergeGraphData
      (.vobj [("a", .vnum 2), ("b", .vobj [("f", .vgraph gid init)]),
              ("c", .vobj [("d", .vnum 5), ("e", .vnum 6)])])
      (.vobj [("a", .vnum 9), ("b", .vobj [("f", .vobj [("g", .vstr "x")])]),
              ("c", .vobj [("d", .vnum 10)])]) =
    .vobj [("a", .vnum 9), ("b", .vobj [("f", .vgraph gid init)]),
           ("c", .vobj [("d", .vnum 10), ("e", .vnum 6)])] := by
  simp [mergeGraphData, unionKeys, insertUniq, objGet]

/-- Claim C2, a code bug: resolveSubGraphsData does not recurse into
non-graph elements of an array (part_001 lines 141-146 keep any such
element unchanged), so a graph node inside a plain object that is itself
an array element survives in the produced value, violating the stored-data
invariant; the same shape nested through plain objects only is stripped
correctly, which localises the slip to the array branch. -/
theorem c2_stored_data_invariant_fails :
    resolveSubGraphsData (.varr [.vobj [("k", .vgraph 7 (.vobj [("key", .vstr "value")]))]]) =
      .varr [.vobj [("k", .vgraph 7 (.vobj [("key", .vstr "value")]))]] ∧
    containsGraph (resolveSubGraphsData
      (.varr [.vobj [("k", .vgraph 7 (.vobj [("key", .vstr "value")]))]])) = true ∧
    resolveSubGraphsData (.vobj [("a", .vobj [("k", .vgraph 7 (.vobj [("key", .vstr "value")]))])]) =
      .vobj [("a", .vobj [("k", .vobj [("key", .vstr "value")])])] ∧
    containsGraph (resolveSubGraphsData
      (.vobj [("a", .vobj [("k", .vgraph 7 (.vobj [("key", .vstr "value")]))])])) = false :=
  ⟨rfl, rfl, rfl, rfl⟩

/-- Claim C3 counterexample: a boolean new value does not win when the old
value is a graph-node reference — mergeGraphData checks isGraph(graph)
before reaching the boolean fall-through case, so the node is returned. -/
theorem c3_scalar_override_counterexample :
    mergeGraphData (.vgraph 0 .vnull) (.vbool true) = .vgraph 0 .vnull ∧
    mergeGraphData (.vgraph 0 .vnull) (.vbool true) ≠ .vbool true := by
  constructor <;> simp [mergeGraphData]

/-- Claim C3 as amended: null, undefined, string and number new values are
returned verbatim over every old value; a boolean new value is returned
verbatim except when the old value is a graph-node reference, in which
case the old node is returned. -/
theorem c3_scalar_override_amended (old : GVal) (s : String) (n : Int) (b : Bool) :
    mergeGraphData old .vnull = .vnull ∧
    mergeGraphData old .vundef = .vundef ∧
    mergeGraphData old (.vstr s) = .vstr s ∧
    mergeGraphData old (.vnum n) = .vnum n ∧
    mergeGraphData old (.vbool b) = (if isGraphB old then old else .vbool b) := by
  refine ⟨?_, ?_, ?_, ?_, ?_⟩ <;> cases old <;> simp [mergeGraphData]

/-- Claim C4 counterexample: node invariance fails for scalar new values —
the scalar branch precedes the graph check, so merging the number 5 into a
node reference yields 5, not the node. -/
theorem c4_node_invariance_counterexample :
    mergeGraphData (.vgraph 0 .vnull) (.vnum 5) = .vnum 5 ∧
    mergeGraphData (.vgraph 0 .vnull) (.vnum 5) ≠ .vgraph 0 .vnull := by
  constructor <;> simp [mergeGraphData]

/-- Claim C4 as amended: for a graph-node old value, mergeGraphData returns
the node unchanged exactly when the new value is not null, undefined, a
string or a number (containers, sequences and booleans among them); for
those scalar-or-nullish new values the new value is returned instead. -/
theorem c4_node_invariance_amended (gid : Nat) (init : GVal) (x : GVal) :
    mergeGraphData (.vgraph gid init) x = (if isScalarLike x then x else .vgraph gid init) := by
  cases x <;> simp [mergeGraphData]

/-- Claim C5, confirmed: merging two sequences yields a sequence of length
max(len(old), len(new)); an index whose value is undefined on one side
(out of range included) carries the other side through unchanged, and an
index defined on both sides carries the recursive merge; in particular
[2,3,"x"] merged with [2,3,4] is [2,3,4]. -/
theorem c5_array_index_union (old new : List GVal) (i : Nat)
    (hi : i < max old.length new.length) :
    (∃ l, mergeGraphData (.varr old) (.varr new) = .varr l ∧
      l.length = max old.length new.length ∧
      l.getD i .vundef =
        (if isUndefB (old.getD i .vundef) then new.getD i .vundef
         else if isUndefB (new.getD i .vundef) then old.getD i .vundef
         else mergeGraphData (old.getD i .vundef) (new.getD i .vundef))) ∧
    mergeGraphData (.varr [.vnum 2, .vnum 3, .vstr "x"]) (.varr [.vnum 2, .vnum 3, .vnum 4]) =
      .varr [.vnum 2, .vnum 3, .vnum 4] := by
  constructor
  · refine ⟨_, merge_varr_varr old new, ?_, ?_⟩
    · simp only [List.length_map, List.length_range]
      exact Nat.max_comm _ _
    · have hi2 : i < max new.length old.length := by rw [Nat.max_comm]; exact hi
      rw [List.getD_eq_getElem?_getD, List.getElem?_map, List.getElem?_range hi2]
      simp
  · simp [mergeGraphData, range_three, List.getD]

/-- Claim C5 witness: the general theorem applied at old = [2,3,"x"],
new = [2,3,4], index 2. -/
theorem c5_array_index_union_witness :
    (2 < max (List.length [GVal.vnum 2, GVal.vnum 3, GVal.vstr "x"])
        (List.length [GVal.vnum 2, GVal.vnum 3, GVal.vnum 4])) ∧
    ((∃ l, mergeGraphData (.varr [.vnum 2, .vnum 3, .vstr "x"])
        (.varr [.vnum 2, .vnum 3, .vnum 4]) = .varr l ∧
      l.length = max (List.length [GVal.vnum 2, GVal.vnum 3, GVal.vstr "x"])
        (List.length [GVal.vnum 2, GVal.vnum 3, GVal.vnum 4]) ∧
      l.getD 2 .vundef =
        (if isUndefB (List.getD [GVal.vnum 2, GVal.vnum 3, GVal.vstr "x"] 2 .vundef)
         then List.getD [GVal.vnum 2, GVal.vnum 3, GVal.vnum 4] 2 .vundef
         else if isUndefB (List.getD [GVal.vnum 2, GVal.vnum 3, GVal.vnum 4] 2 .vundef)
         then List.getD [GVal.vnum 2, GVal.vnum 3, GVal.vstr "x"] 2 .vundef
         else mergeGraphData (List.getD [GVal.vnum 2, GVal.vnum 3, GVal.vstr "x"] 2 .vundef)
           (List.getD [GVal.vnum 2, GVal.vnum 3, GVal.vnum 4] 2 .vundef))) ∧
    mergeGraphData (.varr [.vnum 2, .vnum 3, .vstr "x"]) (.varr [.vnum 2, .vnum 3, .vnum 4]) =
      .varr [.vnum 2, .vnum 3, .vnum 4]) :=
  ⟨by simp, c5_array_index_union [.vnum 2, .vnum 3, .vstr "x"] [.vnum 2, .vnum 3, .vnum 4] 2
    (by simp)⟩

/-- Claim C6, confirmed: the two merge revisions are not extensionally
equal on sequences of unequal length — the current revision (part_001)
keeps iterating and yields [2,3], while the earlier revision (part_002)
hits return graphDataVal at the first index where the old side is
undefined and yields the bare element 3. -/
theorem c6_merge_revisions_diverge :
    mergeGraphData (.varr [.vnum 1]) (.varr [.vnum 2, .vnum 3]) = .varr [.vnum 2, .vnum 3] ∧
    mergeGraphDataV2 (.varr [.vnum 1]) (.varr [.vnum 2, .vnum 3]) = .vnum 3 ∧
    mergeGraphData (.varr [.vnum 1]) (.varr [.vnum 2, .vnum 3]) ≠
      mergeGraphDataV2 (.varr [.vnum 1]) (.varr [.vnum 2, .vnum 3]) := by
  have h1 : mergeGraphData (.varr [.vnum 1]) (.varr [.vnum 2, .vnum 3]) =
      .varr [.vnum 2, .vnum 3] := by
    simp [mergeGraphData, range_two, List.getD]
  have h2 : mergeGraphDataV2 (.varr [.vnum 1]) (.varr [.vnum 2, .vnum 3]) = .vnum 3 := by
    simp [mergeGraphDataV2, mergeArrV2]
  refine ⟨h1, h2, ?_⟩
  rw [h1, h2]
  simp

/-- Claim C7 counterexample: with every node accessor resolving to the
number 42, resolveSubgraphs on a bare node returns the node reference
itself in the current revision and null in the earlier revision — in
neither revision the node resolved value. -/
theorem c7_bare_node_resolution_counterexample :
    resolveSubgraphs (fun _ => .vnum 42) (.vgraph 0 .vnull) = .vgraph 0 .vnull ∧
    resolveSubgraphsV2 (fun _ => .vnum 42) (.vgraph 0 .vnull) = .vnull ∧
    resolveSubgraphs (fun _ => .vnum 42) (.vgraph 0 .vnull) ≠ .vnum 42 ∧
    resolveSubgraphsV2 (fun _ => .vnum 42) (.vgraph 0 .vnull) ≠ .vnum 42 := by
  refine ⟨rfl, rfl, ?_, ?_⟩ <;> simp [resolveSubgraphs, resolveSubgraphsV2]

/-- Claim C7 as amended: resolving a bare graph node (one not wrapped in
any container) returns the node reference unchanged in the current
revision, and null in the earlier revision — never the value the node
accessor would return. -/
theorem c7_bare_node_resolution_amended (env : Nat → GVal) (gid : Nat) (init : GVal) :
    resolveSubgraphs env (.vgraph gid init) = .vgraph gid init ∧
    resolveSubgraphsV2 env (.vgraph gid init) = .vnull :=
  ⟨rfl, rfl⟩

/-- Claim C8 counterexample: with snapshot {a:1}, store {b:2} at execution
time and payload {c:3}, the plain-payload update stores {a:1,c:3} (merge
into the captured snapshot), not the {b:2,c:3} the claim requires; and the
function payload returning {c:3} stores {c:3} verbatim, not the merge of
{c:3} into the freshest value. -/
theorem c8_update_freshness_counterexample :
    updateGraphRun (.vobj [("a", .vnum 1)]) (.plain (.vobj [("c", .vnum 3)]))
        (.vobj [("b", .vnum 2)]) = .vobj [("a", .vnum 1), ("c", .vnum 3)] ∧
    mergeGraphData (.vobj [("b", .vnum 2)]) (.vobj [("c", .vnum 3)]) =
      .vobj [("b", .vnum 2), ("c", .vnum 3)] ∧
    updateGraphRun (.vobj [("a", .vnum 1)]) (.plain (.vobj [("c", .vnum 3)]))
        (.vobj [("b", .vnum 2)]) ≠
      mergeGraphData (.vobj [("b", .vnum 2)]) (.vobj [("c", .vnum 3)]) ∧
    updateGraphRun (.vobj [("a", .vnum 1)]) (.fn fun _ => .vobj [("c", .vnum 3)])
        (.vobj [("b", .vnum 2)]) = .vobj [("c", .vnum 3)] ∧
    updateGraphRun (.vobj [("a", .vnum 1)]) (.fn fun _ => .vobj [("c", .vnum 3)])
        (.vobj [("b", .vnum 2)]) ≠
      mergeGraphData (.vobj [("b", .vnum 2)]) (.vobj [("c", .vnum 3)]) := by
  have hrun : updateGraphRun (.vobj [("a", .vnum 1)]) (.plain (.vobj [("c", .vnum 3)]))
      (.vobj [("b", .vnum 2)]) = .vobj [("a", .vnum 1), ("c", .vnum 3)] := by
    simp [updateGraphRun, updateGraphArg, setGraphApply, mergeGraphData,
      unionKeys, insertUniq, objGet]
  have hmerge : mergeGraphData (.vobj [("b", .vnum 2)]) (.vobj [("c", .vnum 3)]) =
      .vobj [("b", .vnum 2), ("c", .vnum 3)] := by
    simp [mergeGraphData, unionKeys, insertUniq, objGet]
  refine ⟨hrun, hmerge, ?_, rfl, ?_⟩
  · rw [hrun, hmerge]
    simp
  · rw [hmerge]
    simp [updateGraphRun, updateGraphArg, setGraphApply]

/-- Claim C8 as amended: the merge-update function called with a plain
payload p sets the store to mergeGraphData(s0, p) where s0 is the context
snapshot captured when the accessor ran — regardless of the store value
when the update executes; called with a function payload f it forwards f
to the setter, so the store becomes f(s) verbatim for the freshest store
value s, with no merge applied to the result. -/
theorem c8_update_freshness_amended (graphData storeNow p : GVal) (f : GVal → GVal) :
    updateGraphRun graphData (.plain p) storeNow = mergeGraphData graphData p ∧
    updateGraphRun graphData (.fn f) storeNow = f storeNow :=
  ⟨rfl, rfl⟩

/-- Claim C9 counterexample: the accessor can raise the scope error even
though the node context value is non-null. With the node shape
{wrapper: {child: node}} — the child nested at depth two, so the Provider
auto-mounts no provider for it — and the child accessor therefore
throwing, useGraph under the node own mounted scope propagates that same
error. -/
theorem c9_scope_error_counterexample :
    (some ⟨GVal.vobj [("wrapper", GVal.vobj [("child", GVal.vgraph 3 GVal.vnull)])],
      GVal.vobj []⟩ : Option GraphCtx) ≠ none ∧
    useGraphValue (fun _ => .error useGraphErrMsg)
      (some ⟨.vobj [("wrapper", .vobj [("child", .vgraph 3 .vnull)])], .vobj []⟩) =
      .error useGraphErrMsg := by
  constructor
  · simp
  · simp [useGraphValue, mergeGraphData, unionKeys, insertUniq, objGet,
      resolveSubgraphsE, resolveSubgraphsEFields, resolveSubgraphsEElems, Except.map]

/-- Claim C9 as amended: with a null context value useGraph always raises
the error with the message of part_001 line 316; under a mounted scope it
returns the resolution of the merged value, which re-raises the same
error exactly when a nested node accessor reached during resolution
throws (providers are auto-mounted only for direct subgraph entries, so a
node nested at depth two or more without its own provider makes the
accessor raise despite the enclosing scope); when every nested accessor
succeeds, the accessor never raises and returns the resolved value. -/
theorem c9_scope_error_amended (env : Nat → Except String GVal) (c : GraphCtx) :
    useGraphValue env none = .error useGraphErrMsg ∧
    useGraphValue env (some c) = resolveSubgraphsE env (mergeGraphData c.graph c.graphData) ∧
    ((∀ gid, ∃ v, env gid = .ok v) → ∃ v, useGraphValue env (some c) = .ok v) :=
  ⟨rfl, rfl, fun henv => resolveSubgraphsE_ok env henv _⟩

/-- Claim C10, confirmed: inside a plain-container merge a key whose new
side value is undefined keeps the old side value, and inside a sequence
merge an index whose new side value is undefined keeps the old side
element — undefined inside a partial update never clears a field. -/
theorem c10_undefined_never_overwrites (fs gs : List (String × GVal))
    (old new : List GVal) (k : String) (i : Nat)
    (hk : objGet gs k = .vundef) (hi : new.getD i .vundef = .vundef) :
    (∃ hs, mergeGraphData (.vobj fs) (.vobj gs) = .vobj hs ∧ objGet hs k = objGet fs k) ∧
    (∃ l, mergeGraphData (.varr old) (.varr new) = .varr l ∧
      l.getD i .vundef = old.getD i .vundef) := by
  constructor
  · refine ⟨_, merge_vobj_vobj fs gs, ?_⟩
    rw [objGet_map_keys]
    by_cases hmem : k ∈ unionKeys (fs.map Prod.fst) (gs.map Prod.fst)
    · rw [if_pos hmem, hk]
      by_cases hc : objGet fs k = .vundef <;> simp [isUndefB_eq_true, hc]
    · rw [if_neg hmem]
      have hfs : k ∉ fs.map Prod.fst := fun hin => hmem ((mem_unionKeys _ _ _).mpr (Or.inl hin))
      rw [objGet_not_mem _ _ hfs]
  · refine ⟨_, merge_varr_varr old new, ?_⟩
    by_cases hlt : i < max new.length old.length
    · rw [List.getD_eq_getElem?_getD, List.getElem?_map, List.getElem?_range hlt]
      rw [List.getD_eq_getElem?_getD] at hi
      by_cases ho : old[i]?.getD GVal.vundef = GVal.vundef <;>
        simp [isUndefB_eq_true, List.getD_eq_getElem?_getD, hi, ho]
    · push_neg at hlt
      have h1 : ((List.range (max new.length old.length)).map fun j =>
          if isUndefB (old.getD j .vundef) then new.getD j .vundef
          else if isUndefB (new.getD j .vundef) then old.getD j .vundef
          else mergeGraphData (old.getD j .vundef) (new.getD j .vundef)).length ≤ i := by
        simp only [List.length_map, List.length_range]
        exact hlt
      have h2 : old.length ≤ i := le_trans (Nat.le_max_right _ _) hlt
      rw [List.getD_eq_getElem?_getD, List.getElem?_eq_none h1,
        List.getD_eq_getElem?_getD, List.getElem?_eq_none h2]

/-- Claim C10 witness: the general theorem applied at fs = [("a",1)],
gs = [("b",2)], old = [7], new = [], key "a", index 0. -/
theorem c10_undefined_never_overwrites_witness :
    objGet [("b", GVal.vnum 2)] "a" = .vundef ∧
    ([] : List GVal).getD 0 .vundef = .vundef ∧
    ((∃ hs, mergeGraphData (.vobj [("a", .vnum 1)]) (.vobj [("b", .vnum 2)]) = .vobj hs ∧
        objGet hs "a" = objGet [("a", GVal.vnum 1)] "a") ∧
      (∃ l, mergeGraphData (.varr [.vnum 7]) (.varr []) = .varr l ∧
        l.getD 0 .vundef = List.getD [GVal.vnum 7] 0 .vundef)) :=
  ⟨by simp [objGet], by simp, c10_undefined_never_overwrites
    [("a", .vnum 1)] [("b", .vnum 2)] [.vnum 7] [] "a" 0 (by simp [objGet]) (by simp)⟩

end Traph
